/-
Verification of the szurubooru-toolkit `auto_tagger.py` script against its
natural-language specification.

The Python source (src/szurubooru_toolkit/scripts/auto_tagger.py) is shallowly
embedded below: mutable post/config state becomes explicit record passing, the
per-post loop body becomes a pure function producing the updated post, the
statistics deltas, an event trace (search calls, sleeps, downloads, patches)
and an optional error standing for an uncaught Python exception (which the
`@logger.catch` decorator on `main` turns into termination of the whole run).

External collaborators that are not part of the embedded file
(`collect_sources`, `sanitize_tags`, the SauceNAO / Deepbooru / szurubooru
clients) are modelled as oracles or, where a concrete definition is needed,
modelled from the spec and marked as such in their doc comment.
-/
import Mathlib

namespace AutoTagger

/-! ## Python list / string primitives

Python's `str.replace`, `list.remove`, iteration-while-mutating and
`list(set().union(...))` are modelled on `List` below.  Strings that matter
character-wise (source fields) are `List Char`; tag names are `String`.
-/

/-- Python `list(set().union(...))` returns the union without duplicates in an
unspecified order; the model fixes the first-occurrence order.  All claims
except the `deepbooru`/`tagme` removal depend only on the underlying set. -/
def pyDedup {α : Type} [DecidableEq α] : List α → List α
  | [] => []
  | x :: xs => x :: (pyDedup xs).filter (fun y => y ≠ x)

/-- Python `list.remove(x)`: removes the first occurrence of `x`. -/
def pyRemoveFirst {α : Type} [DecidableEq α] (x : α) : List α → List α
  | [] => []
  | y :: ys => if y = x then ys else y :: pyRemoveFirst x ys

/-- Python `[l.remove(tag) for tag in l if pred tag]`: iterating over a list
while removing from it.  After a removal at index `i` the element that moved
into index `i` is never examined (it is kept).  This model is exact for
duplicate-free lists, which is the case at its call site (line 264: the tag
list was built by `list(set().union(...))`). -/
def pyIterRemove (pred : String → Bool) : List String → List String
  | [] => []
  | x :: xs =>
    if pred x then
      match xs with
      | [] => []
      | y :: ys => y :: pyIterRemove pred ys
    else x :: pyIterRemove pred xs

/-- Fuel-indexed worker for `pyReplace`; each step either consumes one
character or a full nonempty pattern occurrence, so `s.length` fuel always
suffices and the fuel-exhausted branch is unreachable. -/
def pyReplaceFuel (p r : List Char) : Nat → List Char → List Char
  | _, [] => []
  | 0, s => s
  | fuel + 1, c :: rest =>
    if p ≠ [] ∧ p.isPrefixOf (c :: rest) then
      r ++ pyReplaceFuel p r fuel ((c :: rest).drop p.length)
    else
      c :: pyReplaceFuel p r fuel rest

/-- Python `str.replace(p, r)`: replaces every non-overlapping occurrence of
`p`, scanning left to right and never rescanning replacement text.  (The
empty-pattern corner case does not occur at the call sites.) -/
def pyReplace (p r s : List Char) : List Char :=
  pyReplaceFuel p r s.length s

/-- Python `p in s` on strings: substring test. -/
def hasSub (p s : List Char) : Bool :=
  s.tails.any (fun t => p.isPrefixOf t)

/-- Number of (position-based) occurrences of `p` inside `s`. -/
def countSub (p s : List Char) : Nat :=
  (List.range (s.length + 1)).countP (fun i => p.isPrefixOf (s.drop i))

/-- Newline-join of a list of source lines. -/
def joinNl : List (List Char) → List Char
  | [] => []
  | [x] => x
  | x :: y :: ys => x ++ '\n' :: joinNl (y :: ys)

/-- Modelled from the spec: `collect_sources` lives in
`szurubooru_toolkit.utils`, which is not under src/.  Per the spec (§4.2,
§9) it merges source strings by deduplicated, order-preserving,
newline-delimited concatenation, dropping empty entries. -/
def collect_sources (args : List (List Char)) : List Char :=
  joinNl (pyDedup (args.filter (fun a => a ≠ [])))

/-! ## Data model (spec §3, source lines 84-142) -/

/-- Observable actions of one run: search-client calls, backoff sleeps, media
downloads, classifier calls, post patches, the post-listing query and fatal
log messages. -/
inductive Event where
  | getPosts : String → Event
  | searchCall : Nat → Event
  | sleep : Nat → Event
  | download : Nat → Event
  | deepbooruCall : Nat → Event
  | patch : Nat → Event
  | updateFailed : Nat → Event
  | critical : String → Event
  deriving DecidableEq

/-- The four process-wide counters of `szurubooru_toolkit.utils.statistics`
(spec §3); the script never passes `skipped`. -/
structure Stats where
  tagged : Nat
  deepbooru : Nat
  untagged : Nat
  skipped : Nat
  deriving DecidableEq

/-- A tag of a related post, as seen by `set_tags_from_relations`. -/
structure RelTag where
  category : String
  primary_name : String
  deriving DecidableEq

/-- A szurubooru post as the script uses it: id, mutable tag list, newline
delimited source text, safety rating, and for each relation the tag list the
server would return for the related post (`szuru.api.getPost(relation['id'])`
resolved into data, since the server is an external collaborator).  The
content URL only feeds the download / search collaborators and is omitted. -/
structure Post where
  id : Nat
  tags : List String
  source : List Char
  safety : String
  relations : List (List RelTag)
  deriving DecidableEq

/-- What `sauce.get_metadata` would return for a post: raw tags, raw source
text, rating, and the two remaining-quota counters (short, long). -/
structure SauceResult where
  tags : List String
  source : List Char
  rating : String
  limit_short : Nat
  limit_long : Nat
  deriving DecidableEq

/-- What `deepbooru.tag_image` would return for a post. -/
structure BooruResult where
  tags : List String
  rating : String
  deriving DecidableEq

/-- The configuration the script reads: `config.szurubooru['public']`, the
four `config.auto_tagger` toggles used by the loop, the parsed
`--add-tags` / `--remove-tags` lists (None when absent), and the external
`sanitize_tags` collaborator (its exact rules are outside src/, so it is a
parameter of the model). -/
structure Env where
  public : Bool
  saucenao_enabled : Bool
  deepbooru_enabled : Bool
  deepbooru_forced : Bool
  add_tags : Option (List String)
  remove_tags : Option (List String)
  sanitize : List String → List String

/-- One post together with the oracle answers of the external services. -/
structure PostInput where
  post : Post
  sauce : SauceResult
  booru : BooruResult
  deriving DecidableEq

/-- `--add-tags` after the `if add_tags:` truthiness test: `None` and the
empty list both behave as no tags. -/
def addList (env : Env) : List String := env.add_tags.getD []

/-- `--remove-tags` after the `if remove_tags:` truthiness test. -/
def removeList (env : Env) : List String := env.remove_tags.getD []

/-! ## Embedded script functions -/

/-- Line 137's condition, exactly as written in the source:
`not relation_tag.category == 'default' or not relation_tag.category == 'meta'`. -/
def relTagCond (category : String) : Bool :=
  !(category == "default") || !(category == "meta")

/-- Lines 130-138 (`set_tags_from_relations`): for every relation, for every
tag of the related post, append its primary name when `relTagCond` holds. -/
def set_tags_from_relations (post : Post) : Post :=
  { post with
    tags := post.tags ++
      post.relations.flatMap
        (fun rel => (rel.filter (fun t => relTagCond t.category)).map
          (fun t => t.primary_name)) }

/-- The relation tags `set_tags_from_relations` appends (same computation,
exposed for the specification-side tag-set formula; parameterized by the
relations list so the two sides share terms). -/
def relationTagNames (rels : List (List RelTag)) : List String :=
  rels.flatMap
    (fun rel => (rel.filter (fun t => relTagCond t.category)).map
      (fun t => t.primary_name))

/-- The result tuple of `parse_saucenao_results` (lines 84-111) plus the side
effects it performs: the tagged-counter increment (line 105), the
`config.auto_tagger['saucenao_enabled']` mutation (lines 107-108), and the
search-call / sleep events. -/
structure SauceParsed where
  tags : List String
  source : List Char
  rating : String
  limit_reached : Bool
  saucenao_enabled_after : Bool
  taggedDelta : Nat
  events : List Event
  deriving Inhabited

/-- Lines 84-111 (`parse_saucenao_results`).  The sleep happens after the
single `get_metadata` call (lines 95-99); no second call is issued.  The
returned tags are `sanitize_tags(tags)` (line 111) while the tagged counter
tests the raw tags (line 104). -/
def parse_saucenao_results (env : Env) (post : Post) (sr : SauceResult) :
    SauceParsed :=
  { tags := env.sanitize sr.tags
    source := collect_sources (sr.source.splitOn '\n' ++ post.source.splitOn '\n')
    rating := sr.rating
    limit_reached := decide (sr.limit_long = 0)
    saucenao_enabled_after :=
      if sr.limit_long = 0 ∧ env.deepbooru_enabled then false else true
    taggedDelta := if sr.tags ≠ [] then 1 else 0
    events :=
      Event.searchCall post.id ::
        (if sr.limit_long ≠ 0 ∧ sr.limit_short = 0 then [Event.sleep 35] else []) }

/-- The character list of the canonical marker `'Deepbooru'` (line 245). -/
def marker : List Char := ['D', 'e', 'e', 'p', 'b', 'o', 'o', 'r', 'u']

/-- The character list of the legacy marker `'DeepBooru'` (line 241). -/
def camel : List Char := ['D', 'e', 'e', 'p', 'B', 'o', 'o', 'r', 'u']

/-- Lines 241-246: remove the legacy `'DeepBooru'` marker (with its adjacent
newline) and, when the canonical `'Deepbooru'` marker is absent, append it via
`collect_sources`. -/
def deepbooruNormalizeSource (s : List Char) : List Char :=
  let s1 :=
    if hasSub camel s then
      pyReplace ('\n' :: camel) [] (pyReplace (camel ++ ['\n']) [] s)
    else s
  if hasSub marker s1 then s1 else collect_sources [s1, marker]

/-- A Python exception raised inside one loop iteration; `@logger.catch` on
`main` (line 141) turns it into termination of the whole run. -/
inductive StepError where
  /-- Line 256: `os.path.exists(tmp_file)` with `tmp_file = None` raises
  `TypeError` (the server is public and the classifier is disabled, so no
  temporary file was created, lines 211-214). -/
  | cleanupTypeError : StepError
  /-- Line 231: the `deepbooru` object is referenced but was never constructed
  (lines 170-173 guard its construction on `deepbooru_enabled`), so
  `deepbooru_forced` without `deepbooru_enabled` raises `NameError`. -/
  | deepbooruNameError : StepError
  deriving DecidableEq

/-- Everything one iteration of the loop (lines 199-269) produces: the final
local post, the statistics deltas, the value of the `tags` variable at the end
of the iteration, the rate-limit flag, the (possibly disabled) search toggle,
whether the search client was invoked, the event trace, the pushed tag list if
`szuru.update_post` ran, and an uncaught exception if one was raised. -/
structure StepOut where
  post : Post
  statsDelta : Stats
  tagsFinal : List String
  limit_reached : Bool
  saucenao_enabled_after : Bool
  searchCalled : Bool
  events : List Event
  patched : Option (List String)
  error : Option StepError
  deriving DecidableEq

/-- Tags removed just before the patch (line 264):
`tag == 'deepbooru' or tag == 'tagme'`. -/
def markerTag (t : String) : Bool :=
  t == "deepbooru" || t == "tagme"

/-- Lines 259-260: `[post.tags.remove(tag) for tag in remove_tags if tag in
post.tags]` — iterate the remove list, dropping the first occurrence of each
member that is present (re-testing presence against the live list). -/
def applyRemoves (rm : List String) (l : List String) : List String :=
  rm.foldl (fun acc t => if t ∈ acc then pyRemoveFirst t acc else acc) l

/-- Lines 223-226 / 236-239: `list(set().union(post.tags, tags, add_tags))`
when `add_tags` is truthy, else without it. -/
def mergeAdd (env : Env) (base extra : List String) : List String :=
  if addList env ≠ [] then pyDedup (base ++ extra ++ addList env)
  else pyDedup (base ++ extra)

/-- Lines 259-260 with their `if remove_tags:` guard. -/
def rmApply (env : Env) (l : List String) : List String :=
  if removeList env ≠ [] then applyRemoves (removeList env) l else l

/-- Lines 233-234: `if post.relations: set_tags_from_relations(post)`. -/
def relApply (p : Post) : Post :=
  if p.relations ≠ [] then set_tags_from_relations p else p

/-- The branch-dependent part of one iteration's outcome (the bookkeeping
fields `limit_reached`, `saucenao_enabled_after` and `searchCalled` of
`StepOut` do not depend on the classify/cleanup/patch branches and are
assembled at the end of `processPost`). -/
structure StageOut where
  post : Post
  statsDelta : Stats
  tagsFinal : List String
  events : List Event
  patched : Option (List String)
  error : Option StepError

/-- Lines 255-269 (cleanup, remove-tags, conditional patch).  The cleanup
check runs before the remove/patch steps, so when it raises (no temporary
file) nothing is patched. -/
def finishPost (env : Env) (tmpSome : Bool) (ev : List Event) (sd : Stats)
    (tags : List String) (post : Post) : StageOut :=
  if !tmpSome then
    { post := post, statsDelta := sd, tagsFinal := tags, events := ev,
      patched := none, error := some StepError.cleanupTypeError }
  else
    let post3 := { post with tags := rmApply env post.tags }
    if tags ≠ [] then
      let post4 := { post3 with tags := pyIterRemove markerTag post3.tags }
      { post := post4, statsDelta := sd, tagsFinal := tags,
        events := ev ++ [Event.patch post4.id],
        patched := some post4.tags, error := none }
    else
      { post := post3, statsDelta := sd, tagsFinal := tags, events := ev,
        patched := none, error := none }

/-- One iteration of the query loop, lines 199-269.  `sauceEnabled` is the
current value of `config.auto_tagger['saucenao_enabled']` (it can be switched
off mid-run by `parse_saucenao_results`). -/
def processPost (env : Env) (sauceEnabled : Bool) (inp : PostInput) : StepOut :=
  let post0 := inp.post
  -- lines 211-214: download only when the server is private or the
  -- classifier needs local pixels
  let tmpSome : Bool := !env.public || env.deepbooru_enabled
  let ev0 : List Event := if tmpSome then [Event.download post0.id] else []
  -- lines 216-228: SauceNAO step
  let sp := parse_saucenao_results env post0 inp.sauce
  let tags1 : List String := if sauceEnabled then sp.tags else []
  let limitReached : Bool := if sauceEnabled then sp.limit_reached else false
  let sauceAfter : Bool := if sauceEnabled then sp.saucenao_enabled_after else sauceEnabled
  let taggedDelta : Nat := if sauceEnabled then sp.taggedDelta else 0
  let ev1 : List Event := ev0 ++ (if sauceEnabled then sp.events else [])
  let post1 : Post :=
    if sauceEnabled then
      { post0 with
        source := sp.source
        safety := sp.rating
        tags := mergeAdd env post0.tags sp.tags }
    else post0
  -- lines 230-253: Deepbooru step / untagged accounting
  let st : StageOut :=
    if (tags1.isEmpty && env.deepbooru_enabled) || env.deepbooru_forced then
      if !env.deepbooru_enabled then
        { post := post1, statsDelta := ⟨taggedDelta, 0, 0, 0⟩,
          tagsFinal := tags1, events := ev1, patched := none,
          error := some StepError.deepbooruNameError }
      else
        let dtags := inp.booru.tags
        let postR := relApply post1
        let post2a :=
          { postR with
            safety := inp.booru.rating
            tags := mergeAdd env postR.tags dtags }
        let post2 := { post2a with source := deepbooruNormalizeSource post2a.source }
        let sd : Stats :=
          if dtags ≠ [] then ⟨taggedDelta, 1, 0, 0⟩ else ⟨taggedDelta, 0, 1, 0⟩
        finishPost env tmpSome (ev1 ++ [Event.deepbooruCall post0.id]) sd dtags post2
    else
      let sd : Stats :=
        if tags1.isEmpty then ⟨taggedDelta, 0, 1, 0⟩ else ⟨taggedDelta, 0, 0, 0⟩
      finishPost env tmpSome ev1 sd tags1 post1
  { post := st.post, statsDelta := st.statsDelta, tagsFinal := st.tagsFinal,
    limit_reached := limitReached, saucenao_enabled_after := sauceAfter,
    searchCalled := sauceEnabled, events := st.events, patched := st.patched,
    error := st.error }

/-- The whole query-iteration loop: the per-step outputs in order, plus the
extra untagged bump `int(total_posts) - index - 1` of the early-termination
branch (line 268). -/
structure RunOut where
  steps : List StepOut
  extraUntagged : Nat

/-- Lines 199-269 iterated: stop on an uncaught exception (the catch-all ends
the run) or on the rate-limit break (lines 267-269). -/
def runLoop (env : Env) (total : Nat) :
    Bool → Nat → List PostInput → RunOut
  | _, _, [] => ⟨[], 0⟩
  | sauceEnabled, index, inp :: rest =>
    let r := processPost env sauceEnabled inp
    if r.error.isSome then ⟨[r], 0⟩
    else if r.limit_reached && !env.deepbooru_enabled then
      ⟨[r], total - index - 1⟩
    else
      let o := runLoop env total r.saucenao_enabled_after (index + 1) rest
      ⟨r :: o.steps, o.extraUntagged⟩

/-- All events of a run, in order. -/
def runEvents (o : RunOut) : List Event :=
  (o.steps.map (fun s => s.events)).flatten

/-- The total untagged count of a run. -/
def runUntagged (o : RunOut) : Nat :=
  (o.steps.map (fun s => s.statsDelta.untagged)).sum + o.extraUntagged

/-- Oracle answers for the single-post Sankaku path: `scrape_sankaku`'s
result and whether `szuru.update_post` raises (lines 186-195). -/
structure MainOracle where
  scrapeTags : List String
  scrapeRating : String
  updateFails : Bool

/-- Python `str.isnumeric()` (line 185), restricted to ASCII digits. -/
def isNumericStr (s : String) : Bool :=
  !s.isEmpty && s.data.all (fun c => c.isDigit)

/-- The observable outcome of `main` (CLI path): event trace, number of post
objects consumed from the `szuru.get_posts` generator (the yielded total
count is not a post), the loop outcome, the single-post result, and whether
line 156's `exit()` fired. -/
structure MainOut where
  events : List Event
  consumed : Nat
  run : Option RunOut
  sankakuPost : Option Post
  exitedEarly : Bool

/-- Lines 141-269 of `main` on the CLI path (`post_id = None`, so
`from_upload_media` is false and `tmp_media_path` is `None`; `parse_args` has
already produced `sankaku_url`, `query` and the add/remove lists).  Note the
post listing (lines 178-179) happens before the `--sankaku_url` numeric check
(line 185). -/
def mainRun (env : Env) (sankaku_url : Option String) (query : String)
    (orc : MainOracle) (inputs : List PostInput) : MainOut :=
  if !env.saucenao_enabled && !env.deepbooru_enabled then
    -- lines 154-156: nothing to do, exit() before any network activity
    { events := [], consumed := 0, run := none, sankakuPost := none,
      exitedEarly := true }
  else
    -- lines 178-179: szuru.get_posts(query) and next(posts) for the total
    let ev0 : List Event := [Event.getPosts query]
    match sankaku_url with
    | some url =>
      if isNumericStr query then
        match inputs with
        | [] =>
          -- next(posts) would raise StopIteration; not modelled further
          { events := ev0, consumed := 0, run := none, sankakuPost := none,
            exitedEarly := false }
        | inp :: _ =>
          let p := inp.post
          let p2 : Post :=
            { p with tags := orc.scrapeTags, safety := orc.scrapeRating,
                     source := url.data }
          if orc.updateFails then
            { events := ev0 ++ [Event.updateFailed p2.id], consumed := 1,
              run := none, sankakuPost := some p2, exitedEarly := false }
          else
            { events := ev0 ++ [Event.patch p2.id], consumed := 1,
              run := none, sankakuPost := some p2, exitedEarly := false }
      else
        -- line 197: fatal message, no post consumed, no patch
        { events := ev0 ++ [Event.critical "sankaku_single_post_only"],
          consumed := 0, run := none, sankakuPost := none, exitedEarly := false }
    | none =>
      let o := runLoop env inputs.length env.saucenao_enabled 0 inputs
      { events := ev0 ++ runEvents o, consumed := o.steps.length,
        run := some o, sankakuPost := none, exitedEarly := false }

/-! ## Specification-side tag-set formula (claim C1)

These definitions follow the spec's words — "pre-existing tags ∪ discovered
tags ∪ add-tags, minus remove-tags, minus {deepbooru, tagme}" — to be
compared with what `processPost` actually pushes. -/

/-- The tags the search step discovers (the sanitized SauceNAO tags when the
search client runs, line 217). -/
def sauceTagsIf (env : Env) (sauceEnabled : Bool) (inp : PostInput) :
    List String :=
  if sauceEnabled then env.sanitize inp.sauce.tags else []

/-- Line 230's condition: the classifier step runs when the search step found
nothing and the classifier is enabled, or in forced mode. -/
def classifyRan (env : Env) (sauceEnabled : Bool) (inp : PostInput) : Bool :=
  ((sauceTagsIf env sauceEnabled inp).isEmpty && env.deepbooru_enabled) ||
    env.deepbooru_forced

/-- The tags the classifier step discovers: the Deepbooru tags together with
the relation-copied tags (lines 231-234), when that step runs. -/
def classifyTagsIf (env : Env) (sauceEnabled : Bool) (inp : PostInput) :
    List String :=
  if classifyRan env sauceEnabled inp then
    inp.booru.tags ++
      (if inp.post.relations ≠ [] then relationTagNames inp.post.relations
       else [])
  else []

/-- Spec formula, inner part: pre-existing ∪ discovered ∪ add-tags. -/
def claimMergedSet (env : Env) (sauceEnabled : Bool) (inp : PostInput) :
    Finset String :=
  inp.post.tags.toFinset ∪ (sauceTagsIf env sauceEnabled inp).toFinset ∪
    (classifyTagsIf env sauceEnabled inp).toFinset ∪ (addList env).toFinset

/-- Spec formula: (pre ∪ discovered ∪ add) − remove − {deepbooru, tagme}. -/
def claimPushedSet (env : Env) (sauceEnabled : Bool) (inp : PostInput) :
    Finset String :=
  (claimMergedSet env sauceEnabled inp \ (removeList env).toFinset) \
    ({"deepbooru", "tagme"} : Finset String)

/-! ## Concrete configurations and inputs used by witnesses and
counterexamples -/

/-- A plain configuration: private server, search on, classifier off, no
user tag lists, sanitization a no-op. -/
def baseEnv : Env :=
  { public := true, saucenao_enabled := true, deepbooru_enabled := false,
    deepbooru_forced := false, add_tags := none, remove_tags := none,
    sanitize := id }

/-- `baseEnv` with a private server (downloads succeed, no cleanup crash). -/
def privEnv : Env := { baseEnv with public := false }

/-- A neutral post input: one pre-existing tag, healthy quotas. -/
def plainInput : PostInput :=
  { post := { id := 1, tags := ["pre"], source := [], safety := "safe",
              relations := [] },
    sauce := { tags := ["found"], source := [], rating := "safe",
               limit_short := 3, limit_long := 5 },
    booru := { tags := [], rating := "safe" } }

/-- C1 counterexample input: the pre-existing tag is `tagme` and the search
client discovers `deepbooru`, so the merged list is exactly the two
placeholder tags. -/
def c1Input : PostInput :=
  { post := { id := 7, tags := ["tagme"], source := [], safety := "safe",
              relations := [] },
    sauce := { tags := ["deepbooru"], source := [], rating := "safe",
               limit_short := 3, limit_long := 5 },
    booru := { tags := [], rating := "safe" } }

/-- C3 input: short-period quota exhausted, long-period quota open. -/
def c3Input : PostInput :=
  { post := { id := 9, tags := ["a"], source := [], safety := "safe",
              relations := [] },
    sauce := { tags := ["b"], source := [], rating := "safe",
               limit_short := 0, limit_long := 5 },
    booru := { tags := [], rating := "safe" } }

/-- C10 configuration: forced-classifier mode on top of an enabled search
client and classifier. -/
def c10Env : Env :=
  { public := false, saucenao_enabled := true, deepbooru_enabled := true,
    deepbooru_forced := true, add_tags := none, remove_tags := none,
    sanitize := id }

/-- C10 input: the search client finds a tag, the classifier finds none. -/
def c10Input : PostInput :=
  { post := { id := 3, tags := [], source := [], safety := "safe",
              relations := [] },
    sauce := { tags := ["cat"], source := [], rating := "safe",
               limit_short := 3, limit_long := 5 },
    booru := { tags := [], rating := "questionable" } }

/-- C5 failing input: one relation whose post carries a `default`-category, a
`meta`-category and an `artist`-category tag. -/
def c5Post : Post :=
  { id := 1, tags := ["a"], source := [], safety := "safe",
    relations := [[{ category := "default", primary_name := "dx" },
                   { category := "meta", primary_name := "mx" },
                   { category := "artist", primary_name := "ax" }]] }

/-- A post input whose search answer reports the long-period quota as `long`
(used to build rate-limit runs). -/
def quotaInput (pid long : Nat) : PostInput :=
  { post := { id := pid, tags := [], source := [], safety := "s",
              relations := [] },
    sauce := { tags := ["t"], source := [], rating := "s",
               limit_short := 1, limit_long := long },
    booru := { tags := ["d"], rating := "s" } }

/-- Ten posts; the third search call reports the long-period quota
exhausted. -/
def c6Inputs : List PostInput :=
  [quotaInput 0 9, quotaInput 1 9, quotaInput 2 0, quotaInput 3 9,
   quotaInput 4 9, quotaInput 5 9, quotaInput 6 9, quotaInput 7 9,
   quotaInput 8 9, quotaInput 9 9]

/-- C9 counterexample sources. -/
def c9BadSource : List Char :=
  ['D', 'e', 'e', 'p', 'B', 'o', 'D', 'e', 'e', 'p', 'B', 'o', 'o', 'r', 'u',
   '\n', 'o', 'r', 'u', '\n', 'D', 'e', 'e', 'p', 'b', 'o', 'o', 'r', 'u']

/-- A source that already contains the canonical marker twice. -/
def c9DupSource : List Char := marker ++ '\n' :: marker

/-! ## Claim theorems -/

/-- C5: the claim says the relation-tag copier appends exactly the related
tags whose category is neither "default" nor "meta".  Line 137's condition is
`not category == 'default' or not category == 'meta'`, which is true for
every category, contradicting the function's own comment ("Copy artist,
character and series from relations"): at the failing input the
`default`-category tag `dx` and the `meta`-category tag `mx` are appended
alongside the `artist` tag `ax`. -/
theorem c5_relation_copy_code_bug :
    (set_tags_from_relations c5Post).tags = ["a", "dx", "mx", "ax"] ∧
    relTagCond "default" = true ∧ relTagCond "meta" = true := by
  decide

/-- C10: in forced-classifier mode, when the search client returns a tag but
the classifier returns none, the single post increments both the tagged
counter (line 105, on the search result) and the untagged counter (line 251,
on the empty classifier result), and is never patched (line 263 tests the
overwritten `tags` variable) — even though the search tags were merged into
the local copy. -/
theorem c10_forced_classifier_double_count :
    c10Env.deepbooru_forced = true ∧
    c10Input.sauce.tags ≠ [] ∧ c10Input.booru.tags = [] ∧
    (processPost c10Env true c10Input).statsDelta.tagged = 1 ∧
    (processPost c10Env true c10Input).statsDelta.untagged = 1 ∧
    (processPost c10Env true c10Input).patched = none := by
  decide

/-- C1, counterexample: with pre-existing tag `tagme` and discovered tag
`deepbooru`, the claim's formula gives the empty set (so the claimed final
set is empty, refuting non-emptiness), yet the post *is* patched and the
pushed list still contains `deepbooru`: iterating `post.tags` while removing
from it (line 264) skips the element that slides into the removed slot. -/
theorem c1_counterexample :
    (processPost privEnv true c1Input).patched = some ["deepbooru"] ∧
    claimPushedSet privEnv true c1Input = ∅ := by
  decide

/-- C3, counterexample: with short-period quota 0 and long-period quota 5 the
iteration sleeps 35 seconds but performs exactly one search call for the
post — `parse_saucenao_results` never re-issues `get_metadata` (lines
95-99 sleep after the single call at line 86), refuting the claimed second
search call for the same post. -/
theorem c3_counterexample :
    c3Input.sauce.limit_short = 0 ∧ c3Input.sauce.limit_long = 5 ∧
    Event.sleep 35 ∈ (processPost privEnv true c3Input).events ∧
    (processPost privEnv true c3Input).events.count
      (Event.searchCall c3Input.post.id) = 1 := by
  decide

/-- C9, counterexample: the source-field normalization (lines 241-246) is not
idempotent — on `c9BadSource` the first application manufactures a fresh
`DeepBooru\n` occurrence out of the surrounding text, and only the second
application removes it — and a source already containing the canonical
marker twice keeps both occurrences, refuting "never contains the marker
more than once". -/
theorem c9_counterexample :
    deepbooruNormalizeSource (deepbooruNormalizeSource c9BadSource) ≠
      deepbooruNormalizeSource c9BadSource ∧
    1 < countSub marker (deepbooruNormalizeSource c9DupSource) := by
  decide

/-- The events of `parse_saucenao_results` are the single search call,
possibly followed by the 35-second sleep. -/
theorem parse_saucenao_events_shape (env : Env) (post : Post)
    (sr : SauceResult) :
    ∀ e ∈ (parse_saucenao_results env post sr).events,
      e = Event.searchCall post.id ∨ e = Event.sleep 35 := by
  intro e he
  simp only [parse_saucenao_results, List.mem_cons] at he
  rcases he with rfl | he
  · exact Or.inl rfl
  · right
    split at he
    · simpa using he
    · simp at he

/-- With a public server and the classifier disabled, one iteration raises
the cleanup `TypeError`, creates no temporary file, and patches nothing. -/
theorem processPost_public_noclassifier (env : Env) (inp : PostInput)
    (hpub : env.public = true) (hdb : env.deepbooru_enabled = false)
    (hforced : env.deepbooru_forced = false) :
    (processPost env true inp).error = some StepError.cleanupTypeError ∧
    (processPost env true inp).patched = none ∧
    (processPost env true inp).events =
      (parse_saucenao_results env inp.post inp.sauce).events := by
  refine ⟨?_, ?_, ?_⟩ <;> simp [processPost, finishPost, hpub, hdb, hforced]

/-- C2: when `--sankaku_url` is supplied with a non-numeric query, the run
logs the fatal message, consumes no post object from the server's post
generator, never patches a post, and runs no tagging loop.  (The post query
itself — `szuru.get_posts` plus the total count, lines 178-179 — is issued
before the numeric check at line 185, but no post is fetched from the
generator.) -/
theorem c2_sankaku_nonnumeric (env : Env) (url query : String)
    (orc : MainOracle) (inputs : List PostInput)
    (henabled : env.saucenao_enabled = true ∨ env.deepbooru_enabled = true)
    (hnum : isNumericStr query = false) :
    (mainRun env (some url) query orc inputs).consumed = 0 ∧
    Event.critical "sankaku_single_post_only" ∈
      (mainRun env (some url) query orc inputs).events ∧
    (∀ e ∈ (mainRun env (some url) query orc inputs).events,
      ∀ n, e ≠ Event.patch n) ∧
    (mainRun env (some url) query orc inputs).run = none := by
  have h1 : (!env.saucenao_enabled && !env.deepbooru_enabled) = false := by
    rcases henabled with h | h <;> simp [h]
  simp [mainRun, h1, hnum]

/-- C2 witness: concrete non-numeric query under the base configuration. -/
theorem c2_sankaku_nonnumeric_witness :
    (privEnv.saucenao_enabled = true ∨ privEnv.deepbooru_enabled = true) ∧
    isNumericStr "date:today" = false ∧
    ((mainRun privEnv (some "https://chan.sankakucomplex.com/post/show/1")
        "date:today" ⟨[], "s", false⟩ []).consumed = 0 ∧
      Event.critical "sankaku_single_post_only" ∈
        (mainRun privEnv (some "https://chan.sankakucomplex.com/post/show/1")
          "date:today" ⟨[], "s", false⟩ []).events ∧
      (∀ e ∈ (mainRun privEnv (some "https://chan.sankakucomplex.com/post/show/1")
          "date:today" ⟨[], "s", false⟩ []).events, ∀ n, e ≠ Event.patch n) ∧
      (mainRun privEnv (some "https://chan.sankakucomplex.com/post/show/1")
        "date:today" ⟨[], "s", false⟩ []).run = none) :=
  ⟨Or.inl rfl, by decide,
    c2_sankaku_nonnumeric privEnv "https://chan.sankakucomplex.com/post/show/1"
      "date:today" ⟨[], "s", false⟩ [] (Or.inl rfl) (by decide)⟩

/-- C4: with a publicly reachable server and the classifier disabled, no
temporary media file is created, the cleanup existence check on the absent
path raises, the catch-all ends the run, and exactly one post was taken up
(and none patched). -/
theorem c4_public_no_classifier_crash (env : Env) (query : String)
    (orc : MainOracle) (inputs : List PostInput)
    (hpub : env.public = true) (hdb : env.deepbooru_enabled = false)
    (hforced : env.deepbooru_forced = false)
    (hsauce : env.saucenao_enabled = true) (hne : inputs ≠ []) :
    (mainRun env none query orc inputs).consumed = 1 ∧
    (∃ r, (mainRun env none query orc inputs).run = some ⟨[r], 0⟩ ∧
      r.error = some StepError.cleanupTypeError ∧ r.patched = none) ∧
    (∀ e ∈ (mainRun env none query orc inputs).events,
      (∀ n, e ≠ Event.download n) ∧ (∀ n, e ≠ Event.patch n)) := by
  obtain ⟨inp, rest, rfl⟩ : ∃ a l, inputs = a :: l := by
    cases inputs with
    | nil => exact absurd rfl hne
    | cons a l => exact ⟨a, l, rfl⟩
  obtain ⟨herr, hpat, hev⟩ := processPost_public_noclassifier env inp hpub hdb hforced
  have hmain : mainRun env none query orc (inp :: rest) =
      { events := Event.getPosts query :: (processPost env true inp).events,
        consumed := 1, run := some ⟨[processPost env true inp], 0⟩,
        sankakuPost := none, exitedEarly := false } := by
    simp [mainRun, hsauce, runLoop, herr, runEvents]
  rw [hmain]
  refine ⟨rfl, ⟨processPost env true inp, rfl, herr, hpat⟩, ?_⟩
  intro e he
  rcases List.mem_cons.mp he with rfl | he2
  · exact ⟨fun n => by simp, fun n => by simp⟩
  · rw [hev] at he2
    rcases parse_saucenao_events_shape env inp.post inp.sauce e he2 with rfl | rfl
    · exact ⟨fun n => by simp, fun n => by simp⟩
    · exact ⟨fun n => by simp, fun n => by simp⟩

/-- Event classifier: is this a patch event? -/
def isPatchEv : Event → Bool
  | Event.patch _ => true
  | _ => false

/-- `finishPost` threads the statistics deltas through unchanged. -/
@[simp] theorem finishPost_statsDelta (env : Env) (tmpSome : Bool)
    (ev : List Event) (sd : Stats) (tags : List String) (post : Post) :
    (finishPost env tmpSome ev sd tags post).statsDelta = sd := by
  unfold finishPost
  split_ifs <;> rfl

/-- `finishPost` reports the passed discovery result unchanged. -/
@[simp] theorem finishPost_tagsFinal (env : Env) (tmpSome : Bool)
    (ev : List Event) (sd : Stats) (tags : List String) (post : Post) :
    (finishPost env tmpSome ev sd tags post).tagsFinal = tags := by
  unfold finishPost
  split_ifs <;> rfl

/-- `finishPost` raises exactly when no temporary file exists. -/
@[simp] theorem finishPost_error (env : Env) (tmpSome : Bool) (ev : List Event)
    (sd : Stats) (tags : List String) (post : Post) :
    (finishPost env tmpSome ev sd tags post).error =
      (if tmpSome then none else some StepError.cleanupTypeError) := by
  unfold finishPost
  split_ifs <;> simp_all

/-- `finishPost` appends exactly one patch event when it patches. -/
@[simp] theorem finishPost_events (env : Env) (tmpSome : Bool) (ev : List Event)
    (sd : Stats) (tags : List String) (post : Post) :
    (finishPost env tmpSome ev sd tags post).events =
      ev ++ (if tmpSome then
        (if tags ≠ [] then [Event.patch post.id] else []) else []) := by
  unfold finishPost
  split_ifs <;> simp_all

/-- `finishPost` patches exactly when a temporary file exists and the
discovery result is non-empty; the pushed list is the remove-tags and
placeholder-tags cleanup of the local tag list. -/
@[simp] theorem finishPost_patched (env : Env) (tmpSome : Bool) (ev : List Event)
    (sd : Stats) (tags : List String) (post : Post) :
    (finishPost env tmpSome ev sd tags post).patched =
      (if tmpSome then
        (if tags ≠ [] then
          some (pyIterRemove markerTag (rmApply env post.tags))
        else none) else none) := by
  unfold finishPost
  split_ifs <;> simp_all

/-- The bookkeeping fields of one iteration: the rate-limit flag and the
next search toggle come from the quota counters, and the search client is
invoked exactly when it is enabled. -/
theorem processPost_state (env : Env) (s : Bool) (inp : PostInput) :
    (processPost env s inp).limit_reached =
      (if s then decide (inp.sauce.limit_long = 0) else false) ∧
    (processPost env s inp).saucenao_enabled_after =
      (if s then
        (if inp.sauce.limit_long = 0 ∧ env.deepbooru_enabled then false else true)
      else s) ∧
    (processPost env s inp).searchCalled = s :=
  ⟨rfl, rfl, rfl⟩

set_option maxHeartbeats 1000000 in
/-- Count of search calls in one iteration: one when the client is enabled,
none otherwise. -/
theorem processPost_count_search (env : Env) (s : Bool) (inp : PostInput) :
    (processPost env s inp).events.count (Event.searchCall inp.post.id) =
      (if s then 1 else 0) := by
  cases s <;>
  · simp [processPost, parse_saucenao_results, List.count_append,
      List.count_cons]
    split_ifs <;> simp_all [List.count_append, List.count_cons]

set_option maxHeartbeats 1000000 in
/-- At most one patch event per iteration. -/
theorem processPost_countP_patch (env : Env) (s : Bool) (inp : PostInput) :
    (processPost env s inp).events.countP isPatchEv ≤ 1 := by
  cases s <;>
  · simp [processPost, parse_saucenao_results, List.countP_append,
      List.countP_cons, isPatchEv]
    split_ifs <;> simp_all [List.countP_append, List.countP_cons, isPatchEv]

set_option maxHeartbeats 1000000 in
/-- A patch only happens when the final discovery result is non-empty. -/
theorem processPost_patched_imp_tags (env : Env) (s : Bool) (inp : PostInput) :
    (processPost env s inp).patched.isSome →
      (processPost env s inp).tagsFinal ≠ [] := by
  cases s <;>
  · simp [processPost, parse_saucenao_results]
    split_ifs <;> simp_all

/-- C7: per loop iteration the post is patched at most once, and only when
the last discovery step produced at least one tag; and when the search client
returns zero tags with the classifier disabled (both classifier toggles off),
the untagged counter is incremented exactly once and the post is not
patched. -/
theorem c7_patch_invariant (env : Env) (s : Bool) (inp : PostInput) :
    ((processPost env s inp).events.countP isPatchEv ≤ 1 ∧
      ((processPost env s inp).patched.isSome →
        (processPost env s inp).tagsFinal ≠ [])) ∧
    (s = true → inp.sauce.tags = [] → env.sanitize [] = [] →
      env.deepbooru_enabled = false → env.deepbooru_forced = false →
      (processPost env s inp).statsDelta.untagged = 1 ∧
      (processPost env s inp).patched = none) := by
  refine ⟨⟨processPost_countP_patch env s inp,
    processPost_patched_imp_tags env s inp⟩, ?_⟩
  rintro rfl hraw hsan hdb hforced
  simp [processPost, parse_saucenao_results, hraw, hsan, hdb, hforced]

/-- Input for the C7 witness: the search client answers with no tags. -/
def c7Input : PostInput :=
  { post := { id := 4, tags := ["keep"], source := [], safety := "s",
              relations := [] },
    sauce := { tags := [], source := [], rating := "s", limit_short := 5,
               limit_long := 5 },
    booru := { tags := [], rating := "s" } }

/-- C7 witness: concrete post with an empty search answer under the base
configuration. -/
theorem c7_patch_invariant_witness :
    baseEnv.sanitize [] = [] ∧ c7Input.sauce.tags = [] ∧
    ((processPost baseEnv true c7Input).statsDelta.untagged = 1 ∧
      (processPost baseEnv true c7Input).patched = none) :=
  ⟨rfl, rfl, (c7_patch_invariant baseEnv true c7Input).2 rfl rfl rfl rfl rfl⟩

/-- C3, amended: with the short-period quota exhausted and the long-period
quota open, the iteration sleeps 35 seconds after its single search call; no
second search call is issued for the same post (the backoff delays the next
post's call). -/
theorem c3_short_limit_backoff (env : Env) (inp : PostInput)
    (hshort : inp.sauce.limit_short = 0) (hlong : inp.sauce.limit_long ≠ 0) :
    Event.sleep 35 ∈ (processPost env true inp).events ∧
    (processPost env true inp).events.count (Event.searchCall inp.post.id) = 1 := by
  refine ⟨?_, by simpa using processPost_count_search env true inp⟩
  simp [processPost, parse_saucenao_results, hshort, hlong]
  split_ifs <;> simp_all

/-- C3 witness: the amended backoff behaviour at the concrete quota state
(short 0, long 5). -/
theorem c3_short_limit_backoff_witness :
    c3Input.sauce.limit_short = 0 ∧ c3Input.sauce.limit_long ≠ 0 ∧
    (Event.sleep 35 ∈ (processPost privEnv true c3Input).events ∧
      (processPost privEnv true c3Input).events.count
        (Event.searchCall c3Input.post.id) = 1) :=
  ⟨rfl, by decide, c3_short_limit_backoff privEnv c3Input rfl (by decide)⟩

/-- With a private server and both classifier toggles off, an iteration never
raises. -/
theorem processPost_priv_noclassifier (env : Env) (inp : PostInput)
    (hdb : env.deepbooru_enabled = false) (hforced : env.deepbooru_forced = false)
    (hpub : env.public = false) :
    (processPost env true inp).error = none := by
  simp [processPost, parse_saucenao_results, hdb, hforced, hpub]

/-- The early-termination accounting of the loop, generalized over the start
index: if the first `i` posts see an open long-period quota and post `i` sees
it exhausted (classifier off, private server), the loop stops after `i + 1`
posts and books `total - (index + i) - 1` extra untagged posts. -/
theorem runLoop_limit_break (env : Env) (total : Nat) (d : PostInput)
    (hdb : env.deepbooru_enabled = false) (hforced : env.deepbooru_forced = false)
    (hpub : env.public = false) :
    ∀ (inputs : List PostInput) (i index : Nat), i < inputs.length →
      (∀ j, j < i → (inputs.getD j d).sauce.limit_long ≠ 0) →
      (inputs.getD i d).sauce.limit_long = 0 →
      (runLoop env total true index inputs).steps.length = i + 1 ∧
      (runLoop env total true index inputs).extraUntagged =
        total - (index + i) - 1 := by
  intro inputs
  induction inputs with
  | nil => intro i index hi _ _; simp at hi
  | cons inp rest ih =>
    intro i index hi hpre hcur
    have herr : (processPost env true inp).error = none :=
      processPost_priv_noclassifier env inp hdb hforced hpub
    obtain ⟨hlim, hafter, -⟩ := processPost_state env true inp
    cases i with
    | zero =>
      have hc : inp.sauce.limit_long = 0 := by simpa using hcur
      have hl : (processPost env true inp).limit_reached = true := by
        rw [hlim]; simp [hc]
      simp [runLoop, herr, hl, hdb]
    | succ i2 =>
      have hc0 : inp.sauce.limit_long ≠ 0 := by
        simpa using hpre 0 (Nat.succ_pos _)
      have hl : (processPost env true inp).limit_reached = false := by
        rw [hlim]; simp [hc0]
      have ha : (processPost env true inp).saucenao_enabled_after = true := by
        rw [hafter]; simp [hc0]
      have hrec := ih i2 (index + 1) (by simpa using hi)
        (fun j hj => by simpa using hpre (j + 1) (Nat.succ_lt_succ hj))
        (by simpa using hcur)
      simp only [runLoop, herr, hl, ha, Option.isSome_none, Bool.false_and,
        Bool.false_eq_true, if_false, ite_false]
      constructor
      · simpa using hrec.1
      · have h2 := hrec.2
        simp only [List.length_cons] at h2 ⊢
        simpa [Nat.add_assoc, Nat.add_comm, Nat.add_left_comm] using h2

/-- C6: if the rate limit is reported on post `i` (0-based) with the
classifier disabled and the earlier posts unlimited, the loop aborts after
post `i` and the extra untagged increment is `total - i - 1`. -/
theorem c6_rate_limit_abort (env : Env) (inputs : List PostInput)
    (d : PostInput) (i : Nat)
    (hdb : env.deepbooru_enabled = false) (hforced : env.deepbooru_forced = false)
    (hpub : env.public = false) (hi : i < inputs.length)
    (hpre : ∀ j, j < i → (inputs.getD j d).sauce.limit_long ≠ 0)
    (hcur : (inputs.getD i d).sauce.limit_long = 0) :
    (runLoop env inputs.length true 0 inputs).steps.length = i + 1 ∧
    (runLoop env inputs.length true 0 inputs).extraUntagged =
      inputs.length - i - 1 := by
  have h := runLoop_limit_break env inputs.length d hdb hforced hpub inputs i 0
    hi hpre hcur
  simpa using h

/-- C6 witness: ten posts, quota exhausted on the third search call (index 2,
0-based), classifier disabled: the loop stops after three posts and books
`10 - 2 - 1 = 7` extra untagged posts. -/
theorem c6_rate_limit_abort_witness :
    c6Inputs.length = 10 ∧ 2 < c6Inputs.length ∧
    ((runLoop privEnv c6Inputs.length true 0 c6Inputs).steps.length = 2 + 1 ∧
      (runLoop privEnv c6Inputs.length true 0 c6Inputs).extraUntagged =
        c6Inputs.length - 2 - 1) :=
  ⟨rfl, by decide,
    c6_rate_limit_abort privEnv c6Inputs plainInput 2 rfl rfl rfl (by decide)
      (by decide) (by decide)⟩

/-- With the classifier enabled, an iteration never raises. -/
theorem processPost_db_error (env : Env) (s : Bool) (inp : PostInput)
    (hdb : env.deepbooru_enabled = true) :
    (processPost env s inp).error = none := by
  cases s <;> simp [processPost, parse_saucenao_results, hdb] <;>
    split_ifs <;> simp_all

/-- With the search client disabled and the classifier enabled, the
iteration's discovery result is exactly the classifier's answer. -/
theorem processPost_sauceOff_tags (env : Env) (inp : PostInput)
    (hdb : env.deepbooru_enabled = true) :
    (processPost env false inp).tagsFinal = inp.booru.tags := by
  simp [processPost, parse_saucenao_results, hdb]

/-- Once the search toggle is off (classifier enabled), every remaining post
is visited, no search call is made, and each post's discovery result is the
classifier's answer. -/
theorem runLoop_sauceOff (env : Env) (total : Nat)
    (hdb : env.deepbooru_enabled = true) :
    ∀ (inputs : List PostInput) (index : Nat),
      (runLoop env total false index inputs).steps.length = inputs.length ∧
      ∀ pr ∈ (runLoop env total false index inputs).steps.zip inputs,
        pr.1.searchCalled = false ∧ pr.1.tagsFinal = pr.2.booru.tags := by
  intro inputs
  induction inputs with
  | nil => intro index; simp [runLoop]
  | cons inp rest ih =>
    intro index
    have herr := processPost_db_error env false inp hdb
    obtain ⟨hlim, hafter, hsc⟩ := processPost_state env false inp
    have hl : (processPost env false inp).limit_reached = false := by
      simpa using hlim
    have ha : (processPost env false inp).saucenao_enabled_after = false := by
      simpa using hafter
    simp only [runLoop, herr, hl, ha, Option.isSome_none, Bool.false_and,
      Bool.false_eq_true, if_false, ite_false]
    constructor
    · simpa using (ih (index + 1)).1
    · intro pr hpr
      simp only [List.zip_cons_cons, List.mem_cons] at hpr
      rcases hpr with rfl | hpr
      · exact ⟨by simpa using hsc, processPost_sauceOff_tags env inp hdb⟩
      · exact (ih (index + 1)).2 pr hpr

/-- The inert `StepOut` used as `List.getD` default when indexing a run's
step list. -/
def noStep : StepOut :=
  { post := { id := 0, tags := [], source := [], safety := "", relations := [] },
    statsDelta := ⟨0, 0, 0, 0⟩, tagsFinal := [], limit_reached := false,
    saucenao_enabled_after := false, searchCalled := false, events := [],
    patched := none, error := none }

/-- C8, generalized over the loop state: once a step reports the long-period
quota exhausted while its search call went out (classifier enabled), every
later step makes no search call and tags with the classifier only. -/
theorem c8_aux (env : Env) (total : Nat) (hdb : env.deepbooru_enabled = true) :
    ∀ (inputs : List PostInput) (s : Bool) (index k : Nat),
      ((runLoop env total s index inputs).steps.getD k noStep).searchCalled = true →
      ((runLoop env total s index inputs).steps.getD k noStep).limit_reached = true →
      ∀ pr ∈ ((runLoop env total s index inputs).steps.drop (k + 1)).zip
          (inputs.drop (k + 1)),
        pr.1.searchCalled = false ∧ pr.1.tagsFinal = pr.2.booru.tags := by
  intro inputs
  induction inputs with
  | nil =>
    intro s index k hsc
    simp [runLoop, noStep] at hsc
  | cons inp rest ih =>
    intro s index k hsc hlr
    have herr := processPost_db_error env s inp hdb
    have hnb : ((processPost env s inp).limit_reached &&
        !env.deepbooru_enabled) = false := by
      simp [hdb]
    simp only [runLoop, herr, Option.isSome_none, Bool.false_eq_true, if_false,
      hnb, ite_false] at hsc hlr ⊢
    obtain ⟨hlim, hafter, hscalled⟩ := processPost_state env s inp
    cases k with
    | zero =>
      simp only [List.getD_cons_zero] at hsc hlr
      have hst : s = true := by rw [hscalled] at hsc; exact hsc
      subst hst
      have hq : inp.sauce.limit_long = 0 := by
        rw [hlim] at hlr
        simpa using hlr
      have ha : (processPost env true inp).saucenao_enabled_after = false := by
        rw [hafter]
        simp [hq, hdb]
      rw [ha]
      intro pr hpr
      simp only [List.drop_succ_cons, List.drop_zero] at hpr
      exact (runLoop_sauceOff env total hdb rest (index + 1)).2 pr hpr
    | succ k2 =>
      simp only [List.getD_cons_succ, List.drop_succ_cons] at hsc hlr ⊢
      exact ih (processPost env s inp).saucenao_enabled_after (index + 1) k2
        hsc hlr

/-- C8: once a search call reports the long-period quota exhausted and the
classifier is enabled, no later iteration of the run calls the search client;
every subsequent post's discovery result comes from the classifier only. -/
theorem c8_no_search_after_limit (env : Env) (inputs : List PostInput) (k : Nat)
    (hdb : env.deepbooru_enabled = true)
    (hcall : ((runLoop env inputs.length true 0 inputs).steps.getD k
      noStep).searchCalled = true)
    (hlim : ((runLoop env inputs.length true 0 inputs).steps.getD k
      noStep).limit_reached = true) :
    ∀ pr ∈ ((runLoop env inputs.length true 0 inputs).steps.drop (k + 1)).zip
        (inputs.drop (k + 1)),
      pr.1.searchCalled = false ∧ pr.1.tagsFinal = pr.2.booru.tags :=
  c8_aux env inputs.length hdb inputs true 0 k hcall hlim

/-- Configuration for the C8 witness: private server, search and classifier
both enabled. -/
def c8Env : Env := { privEnv with deepbooru_enabled := true }

/-- Four posts; the second search call reports the long quota exhausted. -/
def c8Inputs : List PostInput :=
  [quotaInput 0 9, quotaInput 1 0, quotaInput 2 9, quotaInput 3 9]

/-- C8 witness: after the quota-exhausted search call at index 1, the post at
index 2 is classifier-tagged without a search call. -/
theorem c8_no_search_after_limit_witness :
    ((runLoop c8Env c8Inputs.length true 0 c8Inputs).steps.getD 2
      noStep).searchCalled = false ∧
    ((runLoop c8Env c8Inputs.length true 0 c8Inputs).steps.getD 2
      noStep).tagsFinal = (c8Inputs.getD 2 plainInput).booru.tags :=
  c8_no_search_after_limit c8Env c8Inputs 1 rfl (by decide) (by decide)
    ((runLoop c8Env c8Inputs.length true 0 c8Inputs).steps.getD 2 noStep,
      c8Inputs.getD 2 plainInput)
    (by decide)

/-- `hasSub` decides the infix relation. -/
theorem hasSub_iff {p s : List Char} : hasSub p s = true ↔ p <:+: s := by
  simp only [hasSub, List.any_eq_true, List.mem_tails,
    List.isPrefixOf_iff_prefix, List.infix_iff_prefix_suffix]
  constructor
  · rintro ⟨t, ht, hp⟩
    exact ⟨t, hp, ht⟩
  · rintro ⟨t, hp, ht⟩
    exact ⟨t, ht, hp⟩

/-- A pattern free of the separator that is a prefix of `a ++ c :: b` is a
prefix of `a`. -/
theorem prefix_sep_split {p a b : List Char} {c : Char} (hc : c ∉ p) :
    p <+: a ++ c :: b → p <+: a := by
  induction p generalizing a with
  | nil => intro _; exact List.nil_prefix
  | cons x xs ih =>
    intro h
    cases a with
    | nil =>
      rw [List.nil_append] at h
      rcases List.cons_prefix_cons.mp h with ⟨rfl, -⟩
      exact absurd (List.mem_cons_self _ _) hc
    | cons y a2 =>
      rw [List.cons_append] at h
      rcases List.cons_prefix_cons.mp h with ⟨rfl, h2⟩
      exact List.cons_prefix_cons.mpr
        ⟨rfl, ih (fun hm => hc (List.mem_cons_of_mem _ hm)) h2⟩

/-- A nonempty pattern free of the separator that occurs inside `a ++ c :: b`
occurs inside `a` or inside `b`. -/
theorem infix_sep_split {p a b : List Char} {c : Char} (hp : p ≠ [])
    (hc : c ∉ p) : p <:+: a ++ c :: b → p <:+: a ∨ p <:+: b := by
  induction a with
  | nil =>
    intro h
    rw [List.nil_append] at h
    rcases List.infix_cons_iff.mp h with h1 | h1
    · have h2 : p <+: ([] : List Char) := prefix_sep_split hc (by simpa using h1)
      exact absurd (List.prefix_nil.mp h2) hp
    · exact Or.inr h1
  | cons y a2 ih =>
    intro h
    rw [List.cons_append] at h
    rcases List.infix_cons_iff.mp h with h1 | h1
    · exact Or.inl (prefix_sep_split (a := y :: a2) hc (by simpa using h1)).isInfix
    · rcases ih h1 with h2 | h2
      · exact Or.inl (List.infix_cons h2)
      · exact Or.inr h2

/-- `collect_sources` on the pair `(source, canonical marker)` when the
source is not itself the marker. -/
theorem collect_sources_pair {s : List Char} (hs : s ≠ marker) :
    collect_sources [s, marker] =
      (if s = [] then marker else s ++ '\n' :: marker) := by
  by_cases h0 : s = []
  · subst h0
    decide
  · simp [collect_sources, h0, pyDedup, joinNl, List.filter, Ne.symm hs,
      show marker ≠ [] by decide]

/-- C9, amended: on sources free of the legacy camel-case `DeepBooru` marker
the normalization is idempotent, its result always contains the canonical
`Deepbooru` marker, and it leaves a source that already carries the marker
unchanged (so duplicate markers never accumulate).  The unrestricted claim
fails: a legacy marker can make the first application manufacture a new
occurrence (see the counterexample), and pre-existing duplicate canonical
markers are kept. -/
theorem c9_normalize_idempotent (s : List Char)
    (hcamel : hasSub camel s = false) :
    deepbooruNormalizeSource (deepbooruNormalizeSource s) =
      deepbooruNormalizeSource s ∧
    hasSub marker (deepbooruNormalizeSource s) = true ∧
    (hasSub marker s = true → deepbooruNormalizeSource s = s) := by
  have hcamel2 : ¬ camel <:+: s := fun h => by
    rw [hasSub_iff.mpr h] at hcamel
    exact Bool.true_eq_false.mp hcamel
  by_cases hm : hasSub marker s
  · have hfs : deepbooruNormalizeSource s = s := by
      simp [deepbooruNormalizeSource, hcamel, hm]
    exact ⟨by rw [hfs, hfs], by rw [hfs]; exact hm, fun _ => hfs⟩
  · have hm2 : hasSub marker s = false := by
      cases hh : hasSub marker s with
      | true => exact absurd hh hm
      | false => rfl
    have hsm : s ≠ marker := by
      intro h
      subst h
      exact hm (hasSub_iff.mpr (List.infix_refl _))
    have hfs : deepbooruNormalizeSource s = collect_sources [s, marker] := by
      simp [deepbooruNormalizeSource, hcamel, hm2]
    by_cases h0 : s = []
    · subst h0
      have hfs2 : deepbooruNormalizeSource [] = marker := by
        rw [hfs, collect_sources_pair hsm]
        simp
      refine ⟨?_, ?_, fun h => absurd h hm⟩
      · rw [hfs2]
        decide
      · rw [hfs2]
        decide
    · have hfs3 : deepbooruNormalizeSource s = s ++ '\n' :: marker := by
        rw [hfs, collect_sources_pair hsm, if_neg h0]
      have hnotail : ¬ camel <:+: (s ++ '\n' :: marker) := by
        intro h
        rcases infix_sep_split (by decide) (by decide) h with h1 | h1
        · exact hcamel2 h1
        · exact absurd (hasSub_iff.mpr h1) (by decide)
      have hmtail : hasSub marker (s ++ '\n' :: marker) = true := by
        apply hasSub_iff.mpr
        exact ((List.suffix_cons '\n' marker).trans (List.suffix_append s _)).isInfix
      have hc2 : hasSub camel (s ++ '\n' :: marker) = false := by
        cases hh : hasSub camel (s ++ '\n' :: marker) with
        | true => exact absurd (hasSub_iff.mp hh) hnotail
        | false => rfl
      refine ⟨?_, by rw [hfs3]; exact hmtail, fun h => absurd h hm⟩
      rw [hfs3]
      simp [deepbooruNormalizeSource, hc2, hmtail]

/-- C9 amended-claim witness: a plain source without either marker. -/
theorem c9_normalize_idempotent_witness :
    hasSub camel ['h', 't', 't', 'p'] = false ∧
    (deepbooruNormalizeSource (deepbooruNormalizeSource ['h', 't', 't', 'p']) =
        deepbooruNormalizeSource ['h', 't', 't', 'p'] ∧
      hasSub marker (deepbooruNormalizeSource ['h', 't', 't', 'p']) = true ∧
      (hasSub marker ['h', 't', 't', 'p'] = true →
        deepbooruNormalizeSource ['h', 't', 't', 'p'] = ['h', 't', 't', 'p'])) :=
  ⟨by decide, c9_normalize_idempotent ['h', 't', 't', 'p'] (by decide)⟩

/-- Membership in the Python set-union model. -/
@[simp] theorem mem_pyDedup {α : Type} [DecidableEq α] {a : α} {l : List α} :
    a ∈ pyDedup l ↔ a ∈ l := by
  induction l with
  | nil => simp [pyDedup]
  | cons x xs ih =>
    simp only [pyDedup, List.mem_cons, List.mem_filter, ih]
    by_cases hax : a = x <;> simp [hax]

/-- The Python set-union model has no duplicates. -/
theorem nodup_pyDedup {α : Type} [DecidableEq α] (l : List α) :
    (pyDedup l).Nodup := by
  induction l with
  | nil => simp [pyDedup]
  | cons x xs ih =>
    refine List.nodup_cons.mpr ⟨?_, ih.filter _⟩
    intro hmem
    have := (List.mem_filter.mp hmem).2
    simp at this

/-- Removing the first occurrence yields a sublist. -/
theorem pyRemoveFirst_sublist {α : Type} [DecidableEq α] (x : α) :
    ∀ l : List α, List.Sublist (pyRemoveFirst x l) l
  | [] => List.Sublist.refl []
  | y :: ys => by
    simp only [pyRemoveFirst]
    split_ifs
    · exact List.sublist_cons_self y ys
    · exact List.Sublist.cons₂ y (pyRemoveFirst_sublist x ys)

/-- On duplicate-free lists, `list.remove(x)` removes exactly `x`. -/
theorem mem_pyRemoveFirst {α : Type} [DecidableEq α] {x a : α} :
    ∀ {l : List α}, l.Nodup → (a ∈ pyRemoveFirst x l ↔ a ∈ l ∧ a ≠ x)
  | [], _ => by simp [pyRemoveFirst]
  | y :: ys, hnd => by
    obtain ⟨hy, hys⟩ := List.nodup_cons.mp hnd
    simp only [pyRemoveFirst]
    split_ifs with hxy
    · subst hxy
      constructor
      · intro ha
        exact ⟨List.mem_cons_of_mem _ ha, fun hax => hy (hax ▸ ha)⟩
      · rintro ⟨ha, hax⟩
        rcases List.mem_cons.mp ha with rfl | ha2
        · exact absurd rfl hax
        · exact ha2
    · rw [List.mem_cons, List.mem_cons, mem_pyRemoveFirst hys]
      by_cases hay : a = y
      · subst hay
        simp [hxy]
      · simp [hay]

/-- The remove-tags loop (lines 259-260) on a duplicate-free list removes
exactly the listed tags. -/
theorem mem_applyRemoves {a : String} :
    ∀ (rm : List String) {l : List String}, l.Nodup →
      ((a ∈ applyRemoves rm l ↔ a ∈ l ∧ a ∉ rm) ∧ (applyRemoves rm l).Nodup)
  | [], l, hnd => by simpa [applyRemoves] using hnd
  | t :: ts, l, hnd => by
    have hstep : (if t ∈ l then pyRemoveFirst t l else l).Nodup := by
      split_ifs
      · exact List.Nodup.sublist (pyRemoveFirst_sublist t l) hnd
      · exact hnd
    have happly : applyRemoves (t :: ts) l =
        applyRemoves ts (if t ∈ l then pyRemoveFirst t l else l) := by
      simp [applyRemoves]
    have hmem : a ∈ (if t ∈ l then pyRemoveFirst t l else l) ↔
        a ∈ l ∧ a ≠ t := by
      split_ifs with htl
      · exact mem_pyRemoveFirst hnd
      · exact ⟨fun ha => ⟨ha, fun hat => htl (hat ▸ ha)⟩, fun h => h.1⟩
    rw [happly]
    obtain ⟨ih1, ih2⟩ := mem_applyRemoves ts hstep
    refine ⟨?_, ih2⟩
    rw [ih1, hmem]
    simp only [List.mem_cons]
    tauto

/-- Unfolding: a non-matching head is kept. -/
theorem pyIterRemove_cons_neg {pred : String → Bool} {x : String}
    {xs : List String} (hx : pred x = false) :
    pyIterRemove pred (x :: xs) = x :: pyIterRemove pred xs := by
  cases xs with
  | nil => simp [pyIterRemove, hx]
  | cons y ys => simp [pyIterRemove, hx]

/-- Unfolding: a matching last element is removed. -/
theorem pyIterRemove_pos_nil {pred : String → Bool} {x : String}
    (hx : pred x = true) : pyIterRemove pred [x] = [] := by
  simp [pyIterRemove, hx]

/-- Unfolding: after removing a matching head the next element is kept
unexamined (the slide-over skip of remove-while-iterating). -/
theorem pyIterRemove_pos_cons {pred : String → Bool} {x y : String}
    {ys : List String} (hx : pred x = true) :
    pyIterRemove pred (x :: y :: ys) = y :: pyIterRemove pred ys := by
  simp [pyIterRemove, hx]

/-- A list whose members never satisfy the predicate passes through the
iterate-and-remove loop unchanged. -/
theorem pyIterRemove_no_match {pred : String → Bool} :
    ∀ {l : List String}, (∀ a ∈ l, pred a = false) → pyIterRemove pred l = l
  | [], _ => rfl
  | x :: xs, h => by
    rw [pyIterRemove_cons_neg (h x (List.mem_cons_self _ _)),
      pyIterRemove_no_match (fun a ha => h a (List.mem_cons_of_mem _ ha))]

/-- When at most one element matches, the iterate-and-remove loop removes
exactly the matching elements (with two or more adjacent matches it would
skip one: see the C1 counterexample). -/
theorem mem_pyIterRemove {pred : String → Bool} {a : String} :
    ∀ {l : List String}, (l.filter pred).length ≤ 1 →
      (a ∈ pyIterRemove pred l ↔ a ∈ l ∧ pred a = false)
  | [], _ => by simp [pyIterRemove]
  | x :: xs, hone => by
    by_cases hx : pred x = true
    · have hxs : ∀ b ∈ xs, pred b = false := by
        intro b hb
        by_contra hpb
        have hbx : pred b = true := by
          cases hpb2 : pred b with
          | true => rfl
          | false => exact absurd hpb2 hpb
        have hbf : b ∈ xs.filter pred := List.mem_filter.mpr ⟨hb, hbx⟩
        have hfx : (x :: xs).filter pred = x :: xs.filter pred := by
          simp [List.filter_cons, hx]
        have hblen : 0 < (xs.filter pred).length :=
          List.length_pos.mpr (List.ne_nil_of_mem hbf)
        rw [hfx, List.length_cons] at hone
        omega
      cases xs with
      | nil =>
        rw [pyIterRemove_pos_nil hx]
        constructor
        · intro h; exact absurd h (List.not_mem_nil a)
        · rintro ⟨ha, hpa⟩
          rcases List.mem_cons.mp ha with rfl | h2
          · rw [hx] at hpa; exact absurd hpa (by simp)
          · exact absurd h2 (List.not_mem_nil a)
      | cons y ys =>
        have hstep : pyIterRemove pred (x :: y :: ys) = y :: ys := by
          rw [pyIterRemove_pos_cons hx,
            pyIterRemove_no_match (fun b hb => hxs b (List.mem_cons_of_mem _ hb))]
        rw [hstep]
        constructor
        · intro ha
          exact ⟨List.mem_cons_of_mem _ ha, hxs a ha⟩
        · rintro ⟨ha, hpa⟩
          rcases List.mem_cons.mp ha with rfl | h2
          · rw [hx] at hpa; exact absurd hpa (by simp)
          · exact h2
    · have hx2 : pred x = false := by
        cases hh : pred x with
        | true => exact absurd hh hx
        | false => rfl
      have hone2 : (xs.filter pred).length ≤ 1 := by
        have : (x :: xs).filter pred = xs.filter pred := by
          simp [List.filter_cons, hx2]
        rw [this] at hone
        exact hone
      rw [pyIterRemove_cons_neg hx2]
      simp only [List.mem_cons, mem_pyIterRemove hone2]
      by_cases hax : a = x
      · subst hax
        simp [hx2]
      · simp [hax]

/-- A duplicate-free list all of whose members equal `c` has at most one
member. -/
theorem length_le_one_of_all_eq {l : List String} (hnd : l.Nodup) (c : String)
    (h : ∀ a ∈ l, a = c) : l.length ≤ 1 := by
  cases l with
  | nil => simp
  | cons x xs =>
    cases xs with
    | nil => simp
    | cons y ys =>
      exfalso
      have hx := h x (List.mem_cons_self _ _)
      have hy := h y (List.mem_cons_of_mem _ (List.mem_cons_self _ _))
      have : x ∈ y :: ys := by
        rw [hx, ← hy]
        exact List.mem_cons_self _ _
      exact (List.nodup_cons.mp hnd).1 this

/-- When the merged tag list does not contain both placeholder tags, at most
one of its members is a placeholder. -/
theorem filter_markerTag_le_one {l : List String} (hnd : l.Nodup)
    (hm : ¬("deepbooru" ∈ l ∧ "tagme" ∈ l)) :
    (l.filter markerTag).length ≤ 1 := by
  have hf : (l.filter markerTag).Nodup := hnd.filter _
  have hshape : ∀ a ∈ l.filter markerTag, a = "deepbooru" ∨ a = "tagme" := by
    intro a ha
    have := (List.mem_filter.mp ha).2
    simpa [markerTag] using this
  by_cases hd : "deepbooru" ∈ l
  · have ht : "tagme" ∉ l := fun h => hm ⟨hd, h⟩
    refine length_le_one_of_all_eq hf "deepbooru" ?_
    intro a ha
    rcases hshape a ha with rfl | rfl
    · rfl
    · exact absurd (List.mem_filter.mp ha).1 ht
  · refine length_le_one_of_all_eq hf "tagme" ?_
    intro a ha
    rcases hshape a ha with rfl | rfl
    · exact absurd (List.mem_filter.mp ha).1 hd
    · rfl

/-- Membership in the add-tags union step (lines 223-226 / 236-239). -/
theorem mem_mergeAdd (env : Env) (base extra : List String) (a : String) :
    a ∈ mergeAdd env base extra ↔
      (a ∈ base ∨ a ∈ extra ∨ a ∈ addList env) := by
  unfold mergeAdd
  split_ifs with h
  · simp [or_assoc]
  · have h0 : addList env = [] := not_not.mp h
    simp [h0]

/-- The add-tags union step yields a duplicate-free list. -/
theorem nodup_mergeAdd (env : Env) (base extra : List String) :
    (mergeAdd env base extra).Nodup := by
  unfold mergeAdd
  split_ifs <;> exact nodup_pyDedup _

/-- Membership after the guarded remove-tags step (lines 259-260). -/
theorem mem_rmApply (env : Env) {l : List String} (hnd : l.Nodup) (a : String) :
    a ∈ rmApply env l ↔ (a ∈ l ∧ a ∉ removeList env) := by
  unfold rmApply
  split_ifs with h
  · exact (mem_applyRemoves (removeList env) hnd).1
  · have h0 : removeList env = [] := not_not.mp h
    simp [h0]

/-- The guarded remove-tags step preserves duplicate-freeness. -/
theorem nodup_rmApply (env : Env) {l : List String} (hnd : l.Nodup) :
    (rmApply env l).Nodup := by
  unfold rmApply
  split_ifs with h
  · exact (mem_applyRemoves (a := "") (removeList env) hnd).2
  · exact hnd

/-- The tag list after the guarded relation-copy step (lines 233-234). -/
theorem relApply_tags (p : Post) :
    (relApply p).tags =
      p.tags ++ (if p.relations ≠ [] then relationTagNames p.relations
        else []) := by
  unfold relApply
  split_ifs <;> simp [set_tags_from_relations, relationTagNames]

/-- The relation-copy step does not change the relations field. -/
theorem relApply_relations (p : Post) : (relApply p).relations = p.relations := by
  unfold relApply
  split_ifs <;> simp [set_tags_from_relations]

/-- Line 230's condition with the search client enabled. -/
theorem classifyRan_true_eq (env : Env) (inp : PostInput) :
    classifyRan env true inp =
      ((env.sanitize inp.sauce.tags).isEmpty && env.deepbooru_enabled ||
        env.deepbooru_forced) := by
  simp [classifyRan, sauceTagsIf]

/-- Line 230's condition with the search client disabled. -/
theorem classifyRan_false_eq (env : Env) (inp : PostInput) :
    classifyRan env false inp =
      (env.deepbooru_enabled || env.deepbooru_forced) := by
  simp [classifyRan, sauceTagsIf]

set_option maxHeartbeats 1600000 in
/-- C1, amended: whenever a post is patched, the pushed tag set equals
(pre-existing ∪ discovered ∪ add-tags) − remove-tags − {deepbooru, tagme},
where "discovered" covers the search, classifier and relation-copied tags of
the steps that ran — provided the merged set (after remove-tags) does not
contain both placeholder literals.  When it contains both, the in-place
removal can miss one of them, and the pushed set can be empty: the original
claim's set equation and non-emptiness guarantee fail (see the
counterexample). -/
theorem c1_pushed_set (env : Env) (s : Bool) (inp : PostInput)
    (hmk : ¬("deepbooru" ∈ claimMergedSet env s inp \ (removeList env).toFinset ∧
      "tagme" ∈ claimMergedSet env s inp \ (removeList env).toFinset)) :
    ∀ T, (processPost env s inp).patched = some T →
      T.toFinset = claimPushedSet env s inp := by
  intro T hT
  have hmem : ∀ a : String,
      a ∈ claimMergedSet env s inp \ (removeList env).toFinset ↔
        ((a ∈ inp.post.tags ∨ a ∈ sauceTagsIf env s inp ∨
          a ∈ classifyTagsIf env s inp ∨ a ∈ addList env) ∧
          a ∉ removeList env) := by
    intro a
    simp [claimMergedSet, or_assoc]
  suffices h : ∃ L, T = pyIterRemove markerTag L ∧ L.Nodup ∧
      ∀ a, a ∈ L ↔ ((a ∈ inp.post.tags ∨ a ∈ sauceTagsIf env s inp ∨
        a ∈ classifyTagsIf env s inp ∨ a ∈ addList env) ∧
        a ∉ removeList env) by
    obtain ⟨L, rfl, hnd, hL⟩ := h
    have hdL : ¬("deepbooru" ∈ L ∧ "tagme" ∈ L) := by
      rintro ⟨hd, ht⟩
      exact hmk ⟨(hmem _).mpr ((hL _).mp hd), (hmem _).mpr ((hL _).mp ht)⟩
    have hone := filter_markerTag_le_one hnd hdL
    ext a
    rw [List.mem_toFinset, mem_pyIterRemove hone, hL a]
    simp only [claimPushedSet, Finset.mem_sdiff, hmem a]
    simp [markerTag]
  cases s
  case true =>
    simp only [processPost, parse_saucenao_results, if_true] at hT
    split at hT
    case isTrue hcond =>
      have hcr : classifyRan env true inp = true := by
        rw [classifyRan_true_eq]; exact hcond
      split at hT
      case isTrue hdb => simp at hT
      case isFalse hdb =>
        rw [finishPost_patched] at hT
        split at hT
        case isFalse => simp at hT
        case isTrue htmp =>
          split at hT
          case isFalse => simp at hT
          case isTrue hne =>
            rw [Option.some.injEq] at hT
            refine ⟨_, hT.symm, nodup_rmApply env (nodup_mergeAdd env _ _), ?_⟩
            intro a
            rw [mem_rmApply env (nodup_mergeAdd env _ _) a]
            rw [mem_mergeAdd, relApply_tags]
            simp [mem_mergeAdd, sauceTagsIf, classifyTagsIf, hcr,
              List.mem_append]
            tauto
    case isFalse hcond =>
      have hcr : classifyRan env true inp = false := by
        rw [classifyRan_true_eq]; exact Bool.eq_false_iff.mpr hcond
      rw [finishPost_patched] at hT
      split at hT
      case isFalse => simp at hT
      case isTrue htmp =>
        split at hT
        case isFalse => simp at hT
        case isTrue hne =>
          rw [Option.some.injEq] at hT
          refine ⟨_, hT.symm, nodup_rmApply env (nodup_mergeAdd env _ _), ?_⟩
          intro a
          rw [mem_rmApply env (nodup_mergeAdd env _ _) a]
          simp [mem_mergeAdd, sauceTagsIf, classifyTagsIf, hcr,
            List.mem_append]
  case false =>
    simp only [processPost, parse_saucenao_results, Bool.false_eq_true,
      if_false] at hT
    split at hT
    case isTrue hcond =>
      have hcr : classifyRan env false inp = true := by
        rw [classifyRan_false_eq]
        simpa using hcond
      split at hT
      case isTrue hdb => simp at hT
      case isFalse hdb =>
        rw [finishPost_patched] at hT
        split at hT
        case isFalse => simp at hT
        case isTrue htmp =>
          split at hT
          case isFalse => simp at hT
          case isTrue hne =>
            rw [Option.some.injEq] at hT
            refine ⟨_, hT.symm, nodup_rmApply env (nodup_mergeAdd env _ _), ?_⟩
            intro a
            rw [mem_rmApply env (nodup_mergeAdd env _ _) a]
            rw [mem_mergeAdd, relApply_tags]
            simp [mem_mergeAdd, sauceTagsIf, classifyTagsIf, hcr,
              List.mem_append]
            tauto
    case isFalse hcond =>
      rw [finishPost_patched] at hT
      split at hT
      case isFalse => simp at hT
      case isTrue htmp =>
        split at hT
        case isFalse => simp at hT
        case isTrue hne => simp at hne

/-- C1 amended-claim witness: a patched post without placeholder tags; the
pushed set matches the spec formula. -/
theorem c1_pushed_set_witness :
    ¬("deepbooru" ∈ claimMergedSet privEnv true plainInput \
        (removeList privEnv).toFinset ∧
      "tagme" ∈ claimMergedSet privEnv true plainInput \
        (removeList privEnv).toFinset) ∧
    (processPost privEnv true plainInput).patched = some ["pre", "found"] ∧
    (["pre", "found"] : List String).toFinset =
      claimPushedSet privEnv true plainInput :=
  ⟨by decide, by decide,
    c1_pushed_set privEnv true plainInput (by decide) ["pre", "found"]
      (by decide)⟩

/-- C4 witness: one post, public server, classifier disabled. -/
theorem c4_public_no_classifier_crash_witness :
    baseEnv.public = true ∧ baseEnv.deepbooru_enabled = false ∧
    ([plainInput] : List PostInput) ≠ [] ∧
    ((mainRun baseEnv none "tag-count:0" ⟨[], "s", false⟩ [plainInput]).consumed = 1 ∧
      (∃ r, (mainRun baseEnv none "tag-count:0" ⟨[], "s", false⟩ [plainInput]).run =
          some ⟨[r], 0⟩ ∧
        r.error = some StepError.cleanupTypeError ∧ r.patched = none) ∧
      (∀ e ∈ (mainRun baseEnv none "tag-count:0" ⟨[], "s", false⟩ [plainInput]).events,
        (∀ n, e ≠ Event.download n) ∧ (∀ n, e ≠ Event.patch n))) :=
  ⟨rfl, rfl, List.cons_ne_nil _ _,
    c4_public_no_classifier_crash baseEnv "tag-count:0" ⟨[], "s", false⟩
      [plainInput] rfl rfl rfl rfl (List.cons_ne_nil _ _)⟩

end AutoTagger
